import Mathlib

/-!
Verification development for the `chatmock` Go repository: a provider-routing
and chat-protocol translation engine.  Go strings are modelled as lists of
characters (`GoStr`), Go's `encoding/json` values as an inductive `Json` AST,
and the stateful `remote.Manager` / `rules.Store` as explicit lists threaded
through the operations.  The network call performed by the completion
orchestrator is modelled as an oracle parameter (`Net`), since the transport
is external to the program logic.  Definitions mirror the Go source in
`internal/remote/client.go`, `internal/api/handlers.go`,
`internal/app/server.go` and `internal/rules`.
-/

/-- Go strings, modelled as lists of characters. -/
abbrev GoStr := List Char

/-- Build a `GoStr` from a Lean string literal. -/
def gs (s : String) : GoStr := s.data

/-- Model of `unicode.IsSpace` on the whitespace characters relevant here. -/
def goIsSpace (c : Char) : Bool :=
  c == ' ' || c == '\t' || c == '\n' || c == '\r'

/-- Model of Go `strings.TrimSpace`. -/
def goTrimSpace (s : GoStr) : GoStr :=
  ((s.dropWhile goIsSpace).reverse.dropWhile goIsSpace).reverse

/-- Model of Go `strings.ToLower` (ASCII case folding). -/
def goToLower (s : GoStr) : GoStr := s.map Char.toLower

/-- Model of Go `strings.TrimPrefix`: drop `pre` from the front when present. -/
def goTrimPre (s pre : GoStr) : GoStr :=
  if pre.isPrefixOf s then s.drop pre.length else s

/-- Model of Go `strings.TrimSuffix`: drop `suf` from the end when present. -/
def goTrimSuf (s suf : GoStr) : GoStr :=
  if suf.isSuffixOf s then s.take (s.length - suf.length) else s

/-- Model of Go `strings.Contains` (substring containment). -/
def goContains : GoStr → GoStr → Bool
  | [], sub => sub.isEmpty
  | c :: rest, sub => sub.isPrefixOf (c :: rest) || goContains rest sub

/-- `remote.Provider` (internal/remote/client.go).  The Go field `ModelPrefix`
is rendered here as `modelPref`. -/
structure Provider where
  name : GoStr
  kind : GoStr
  baseURL : GoStr
  apiKey : GoStr
  accessToken : GoStr
  accountID : GoStr
  modelPref : GoStr
  routeAll : Bool
deriving DecidableEq, Repr

/-- `remote.ProviderView` (internal/remote/client.go). -/
structure ProviderView where
  name : GoStr
  kind : GoStr
  baseURL : GoStr
  hasAPIKey : Bool
  hasAccessToken : Bool
  hasAccountID : Bool
  modelPref : GoStr
  routeAll : Bool
deriving DecidableEq, Repr

/-- `sameProvider` (internal/remote/client.go): identity used for
dedup-on-upsert, decided in priority order. -/
def sameProvider (a b : Provider) : Bool :=
  if goTrimSpace a.name ≠ [] ∧ goTrimSpace b.name ≠ [] then
    a.name == b.name
  else if goTrimSpace a.modelPref ≠ [] ∧ goTrimSpace b.modelPref ≠ [] then
    a.modelPref == b.modelPref
  else
    a.kind == b.kind && a.baseURL == b.baseURL

/-- `normalizeProvider` (internal/remote/client.go). -/
def normalizeProvider (p : Provider) : Provider :=
  let kind0 : GoStr := if goTrimSpace p.kind = [] then gs "openai" else p.kind
  let kind : GoStr := goToLower (goTrimSpace kind0)
  let pre : GoStr :=
    if goTrimSpace p.modelPref = [] then
      if kind = gs "ollama" then gs "ollama/"
      else if kind = gs "codex" then gs "codex/"
      else if kind = gs "chatgpt" then gs "chatgpt/"
      else gs "remote/"
    else p.modelPref
  let name : GoStr := if goTrimSpace p.name = [] then goTrimSuf pre (gs "/") else p.name
  let baseURL : GoStr :=
    if goTrimSpace p.baseURL = [] ∧ kind = gs "chatgpt" then gs "https://chatgpt.com"
    else p.baseURL
  { p with kind := kind, modelPref := pre, name := name, baseURL := baseURL }

/-- The scan-and-replace loop inside `Manager.Upsert`, acting on the
already-normalized record `q`. -/
def upsertAux : List Provider → Provider → List Provider
  | [], q => [q]
  | x :: xs, q => if sameProvider x q then q :: xs else x :: upsertAux xs q

/-- `Manager.Upsert` (internal/remote/client.go): the manager state is its
provider list, in registration order. -/
def managerUpsert (ps : List Provider) (p : Provider) : List Provider :=
  upsertAux ps (normalizeProvider p)

/-- `Manager.SetAll` (internal/remote/client.go). -/
def managerSetAll (ps : List Provider) : List Provider :=
  ps.map normalizeProvider

/-- The per-provider view built inside `Manager.Views`. -/
def viewOf (p : Provider) : ProviderView :=
  { name := p.name
    kind := p.kind
    baseURL := p.baseURL
    hasAPIKey := !(goTrimSpace p.apiKey).isEmpty
    hasAccessToken := !(goTrimSpace p.accessToken).isEmpty
    hasAccountID := !(goTrimSpace p.accountID).isEmpty
    modelPref := p.modelPref
    routeAll := p.routeAll }

/-- `Manager.Views` (internal/remote/client.go): the redacted list. -/
def managerViews (ps : List Provider) : List ProviderView :=
  ps.map viewOf

/-- `ShouldProxy` (internal/remote/client.go). -/
def shouldProxy (p : Provider) (requestedModel : GoStr) : Bool :=
  if goTrimSpace p.baseURL = [] then false
  else if p.routeAll then true
  else
    let pre := goTrimSpace p.modelPref
    !pre.isEmpty && pre.isPrefixOf (goTrimSpace requestedModel)

/-- `NormalizeModel` (internal/remote/client.go). -/
def normalizeModel (p : Provider) (requestedModel : GoStr) : GoStr :=
  let m := goTrimSpace requestedModel
  let pre := goTrimSpace p.modelPref
  if !pre.isEmpty && pre.isPrefixOf m then goTrimPre m pre else m

/-- `Manager.Match` (internal/remote/client.go): first provider in
registration order accepted by `ShouldProxy`, with the rewritten model;
`none` models `found = false`. -/
def managerMatch : List Provider → GoStr → Option (Provider × GoStr)
  | [], _ => none
  | p :: rest, m =>
      if shouldProxy p m then some (p, normalizeModel p m) else managerMatch rest m

/-- A JSON value, modelling the documents handled by `encoding/json`. -/
inductive Json where
  | null : Json
  | bool (b : Bool) : Json
  | num (n : Int) : Json
  | str (s : GoStr) : Json
  | arr (xs : List Json) : Json
  | obj (fields : List (GoStr × Json)) : Json

/-- Object field lookup.  `encoding/json` keeps the last occurrence of a
duplicated key, hence the later-binding-wins scan. -/
def jlookup (key : GoStr) : List (GoStr × Json) → Option Json
  | [] => none
  | (k, v) :: rest =>
      match jlookup key rest with
      | some w => some w
      | none => if k = key then some v else none

/-- Decode a string-typed struct field: a missing field or JSON null leaves
the zero value, a string is taken verbatim, any other type is a decode
error (as in `encoding/json`). -/
def decStr (fields : List (GoStr × Json)) (key : GoStr) : Option GoStr :=
  match jlookup key fields with
  | none => some []
  | some Json.null => some []
  | some (Json.str s) => some s
  | some _ => none

/-- Decode an int-typed struct field, with `encoding/json` semantics as in
`decStr`. -/
def decInt (fields : List (GoStr × Json)) (key : GoStr) : Option Int :=
  match jlookup key fields with
  | none => some 0
  | some Json.null => some 0
  | some (Json.num n) => some n
  | some _ => none

/-- `chat.Message` (internal/chat). -/
structure Message where
  role : GoStr
  content : GoStr
deriving DecidableEq, Repr

/-- `chat.Choice` (internal/chat). -/
structure Choice where
  index : Int
  finishReason : GoStr
  message : Message
deriving DecidableEq, Repr

/-- `chat.Usage` (internal/chat). -/
structure Usage where
  promptTokens : Int
  completionTokens : Int
  totalTokens : Int
deriving DecidableEq, Repr

/-- `chat.CompletionResponse` (internal/chat). -/
structure CompletionResponse where
  id : GoStr
  object : GoStr
  created : Int
  model : GoStr
  choices : List Choice
  usage : Usage
deriving DecidableEq, Repr

/-- `chat.CompletionRequest` (internal/chat).  The `temperature` field
(float64, only echoed verbatim into the openai-compatible payload) plays no
role in the verified claims and is not modelled. -/
structure CompletionRequest where
  model : GoStr
  messages : List Message
deriving DecidableEq, Repr

/-- Decode a `chat.Message` from JSON (struct decode semantics). -/
def decMessage (j : Json) : Option Message :=
  match j with
  | Json.obj f => do
      let role ← decStr f (gs "role")
      let content ← decStr f (gs "content")
      pure ⟨role, content⟩
  | Json.null => some ⟨[], []⟩
  | _ => none

/-- Decode a `chat.Choice` from JSON (struct decode semantics). -/
def decChoice (j : Json) : Option Choice :=
  match j with
  | Json.obj f => do
      let index ← decInt f (gs "index")
      let finishReason ← decStr f (gs "finish_reason")
      let message ←
        match jlookup (gs "message") f with
        | none => some (⟨[], []⟩ : Message)
        | some jm => decMessage jm
      pure ⟨index, finishReason, message⟩
  | Json.null => some ⟨0, [], ⟨[], []⟩⟩
  | _ => none

/-- Decode a `chat.Usage` from JSON (struct decode semantics). -/
def decUsage (j : Json) : Option Usage :=
  match j with
  | Json.obj f => do
      let p ← decInt f (gs "prompt_tokens")
      let c ← decInt f (gs "completion_tokens")
      let t ← decInt f (gs "total_tokens")
      pure ⟨p, c, t⟩
  | Json.null => some ⟨0, 0, 0⟩
  | _ => none

/-- Decode a `chat.CompletionResponse` from JSON, as `json.Unmarshal` does in
`Handlers.runCompletion` for the remote-path response body. -/
def decodeCompletionResponse (j : Json) : Option CompletionResponse :=
  match j with
  | Json.obj f => do
      let id ← decStr f (gs "id")
      let object ← decStr f (gs "object")
      let created ← decInt f (gs "created")
      let model ← decStr f (gs "model")
      let choices ←
        match jlookup (gs "choices") f with
        | none => some ([] : List Choice)
        | some Json.null => some ([] : List Choice)
        | some (Json.arr xs) => xs.mapM decChoice
        | some _ => none
      let usage ←
        match jlookup (gs "usage") f with
        | none => some (⟨0, 0, 0⟩ : Usage)
        | some ju => decUsage ju
      pure ⟨id, object, created, model, choices, usage⟩
  | Json.null => some ⟨[], [], 0, [], [], ⟨0, 0, 0⟩⟩
  | _ => none

/-- `rules.Rule` (internal/rules). -/
structure Rule where
  contains : GoStr
  reply : GoStr
deriving DecidableEq, Repr

/-- `rules.Store.Match` (internal/rules): case-insensitive substring match,
first rule in list order wins; `none` models `found = false`. -/
def storeMatch : List Rule → GoStr → Option GoStr
  | [], _ => none
  | r :: rest, content =>
      if goContains (goToLower content) (goToLower r.contains) then some r.reply
      else storeMatch rest content

/-- The rule store seeded by `app.NewServer` (internal/app/server.go). -/
def seedRules : List Rule :=
  [⟨gs "hello", gs "Hi! This is a mocked assistant response."⟩,
   ⟨gs "weather", gs "The mock forecast: sunny with a chance of unit tests."⟩]

/-- `estimateTokens` (internal/api/handlers.go). -/
def estimateTokens (messages : List Message) : Int :=
  let total : Nat := messages.foldl (fun acc m => acc + m.content.length) 0
  if total = 0 then 0
  else if total < 4 then 1
  else Int.ofNat (total / 4)

/-- `chooseModel` (internal/api/handlers.go). -/
def chooseModel (model : GoStr) : GoStr :=
  if (goTrimSpace model).isEmpty then gs "gpt-mock-1" else model

/-- Result of the modelled network call `Client.ChatCompletions`: a transport
error, or a status code with the response bytes (given as the JSON document
they parse to, `none` when the bytes are not valid JSON). -/
inductive NetResult where
  | transportErr : NetResult
  | ok (body : Option Json) (status : Nat) : NetResult

/-- The network oracle standing for the HTTP transport used by
`remote.Client`: provider, request and rewritten model determine the reply. -/
abbrev Net := Provider → CompletionRequest → GoStr → NetResult

/-- The Go triple returned by `Handlers.runCompletion`:
`(chat.CompletionResponse, int, error)`. -/
structure RunOutcome where
  resp : CompletionResponse
  status : Nat
  err : Option GoStr
deriving DecidableEq, Repr

/-- The zero value of `chat.CompletionResponse`. -/
def zeroResp : CompletionResponse := ⟨[], [], 0, [], [], ⟨0, 0, 0⟩⟩

/-- The fixed generic fallback reply in `Handlers.runCompletion`. -/
def genericFallbackReply : GoStr :=
  gs "Mock response: I received your message and no custom rule matched."

/-- `Handlers.runCompletion` (internal/api/handlers.go).  `now` stands for
`time.Now().Unix()`; the remote-path error strings elide the `%w`/`%d`
formatting detail. -/
def runCompletion (net : Net) (ps : List Provider) (rs : List Rule)
    (now : Int) (req : CompletionRequest) : RunOutcome :=
  if req.messages.isEmpty then
    ⟨zeroResp, 400, some (gs "messages must not be empty")⟩
  else
    match managerMatch ps req.model with
    | some (p, model) =>
        match net p req model with
        | NetResult.transportErr =>
            ⟨zeroResp, 502, some (gs "remote request failed")⟩
        | NetResult.ok body status =>
            if 400 ≤ status then
              ⟨zeroResp, status, some (gs "remote returned status")⟩
            else
              match body.bind decodeCompletionResponse with
              | none => ⟨zeroResp, 502, some (gs "invalid remote response")⟩
              | some out => ⟨out, 200, none⟩
    | none =>
        let lastMsg := req.messages.getLast?.getD ⟨[], []⟩
        let reply := (storeMatch rs lastMsg.content).getD genericFallbackReply
        let promptT := estimateTokens req.messages
        let complT := estimateTokens [⟨gs "assistant", reply⟩]
        ⟨⟨gs "chatcmpl-mock", gs "chat.completion", now, chooseModel req.model,
          [⟨0, gs "stop", ⟨gs "assistant", reply⟩⟩],
          ⟨promptT, complT, promptT + complT⟩⟩, 200, none⟩

/-- Layer (1) of `extractChatGPTOutputText`: the struct decode of
`{ output_text string }`.  It fails when the body is not an object (or null),
or when `output_text` is present with a non-string, non-null type. -/
def decodeSimpleOutputText (j : Json) : Option GoStr :=
  match j with
  | Json.obj f =>
      match jlookup (gs "output_text") f with
      | none => some []
      | some Json.null => some []
      | some (Json.str v) => some v
      | some _ => none
  | Json.null => some []
  | _ => none

/-- Go `strings.Join` with separator `"\n"`. -/
def joinNL : List GoStr → GoStr
  | [] => []
  | [x] => x
  | x :: y :: rest => x ++ '\n' :: joinNL (y :: rest)

/-- The inner loop of layer (3): collect the `text` string of every element
of a `content` array (failed type assertions contribute nothing). -/
def contentTexts : List Json → List GoStr
  | [] => []
  | c :: rest =>
      match c with
      | Json.obj co =>
          match jlookup (gs "text") co with
          | some (Json.str t) => t :: contentTexts rest
          | _ => contentTexts rest
      | _ => contentTexts rest

/-- The outer loop of layer (3): walk the `output` array, gathering each
element's `content` texts in array order. -/
def collectTexts : List Json → List GoStr
  | [] => []
  | item :: rest =>
      (match item with
       | Json.obj io =>
           match jlookup (gs "content") io with
           | some (Json.arr cs) => contentTexts cs
           | _ => []
       | _ => []) ++ collectTexts rest

/-- Layers (2) and (3) of `extractChatGPTOutputText`: the generic
`map[string]any` decode followed by the `output` walk. -/
def genericExtract (j : Json) : GoStr :=
  match j with
  | Json.obj f =>
      match jlookup (gs "output_text") f with
      | some (Json.str v) => v
      | _ =>
          match jlookup (gs "output") f with
          | some (Json.arr items) => goTrimSpace (joinNL (collectTexts items))
          | _ => []
  | _ => []

/-- `extractChatGPTOutputText` (internal/remote/client.go): layer (1) wins
when it decodes to a non-blank string, else layers (2)/(3) run. -/
def extractChatGPTOutputText (j : Json) : GoStr :=
  match decodeSimpleOutputText j with
  | some s => if (goTrimSpace s).isEmpty then genericExtract j else s
  | none => genericExtract j

/-- Serialization of a `chat.Message` by `encoding/json`, as used for the
`messages` array of the Ollama wire request in `Client.chatOllama`. -/
def messageToJson (m : Message) : Json :=
  Json.obj [(gs "role", Json.str m.role), (gs "content", Json.str m.content)]

/-- The Ollama wire request payload built by `Client.chatOllama`:
`{model, messages, stream:false}`. -/
def ollamaWire (model : GoStr) (messages : List Message) : Json :=
  Json.obj [(gs "model", Json.str model),
            (gs "messages", Json.arr (messages.map messageToJson)),
            (gs "stream", Json.bool false)]

/-- The decoded native Ollama response used by `Client.chatOllama`. -/
structure OllamaResp where
  model : GoStr
  msgRole : GoStr
  msgContent : GoStr
  promptEvalCount : Int
  evalCount : Int
deriving DecidableEq, Repr

/-- Decode the nested `message` object of the Ollama response. -/
def decodeOllamaMsg (j : Json) : Option (GoStr × GoStr) :=
  match j with
  | Json.obj f => do
      let role ← decStr f (gs "role")
      let content ← decStr f (gs "content")
      pure (role, content)
  | Json.null => some ([], [])
  | _ => none

/-- Decode the native Ollama response struct of `Client.chatOllama`. -/
def decodeOllamaResp (j : Json) : Option OllamaResp :=
  match j with
  | Json.obj f => do
      let model ← decStr f (gs "model")
      let rc ←
        match jlookup (gs "message") f with
        | none => some (([], []) : GoStr × GoStr)
        | some jm => decodeOllamaMsg jm
      let p ← decInt f (gs "prompt_eval_count")
      let e ← decInt f (gs "eval_count")
      pure ⟨model, rc.1, rc.2, p, e⟩
  | Json.null => some ⟨[], [], [], 0, 0⟩
  | _ => none

/-- The canonical response synthesized by `Client.chatOllama` from a decoded
successful Ollama body (`now` stands for `time.Now().Unix()`). -/
def translateOllama (now : Int) (j : Json) : Option CompletionResponse :=
  (decodeOllamaResp j).map fun o =>
    ⟨gs "chatcmpl-ollama", gs "chat.completion", now, o.model,
     [⟨0, gs "stop", ⟨o.msgRole, o.msgContent⟩⟩],
     ⟨o.promptEvalCount, o.evalCount, o.promptEvalCount + o.evalCount⟩⟩

/-- Spec-worded match predicate for the router (spec section 4.2): the
provider's baseURL is non-blank and either routeAll holds or the trimmed
requested model starts with the trimmed modelPrefix. -/
def specMatchB (p : Provider) (requestedModel : GoStr) : Bool :=
  decide (goTrimSpace p.baseURL ≠ []) &&
    (p.routeAll || (goTrimSpace p.modelPref).isPrefixOf (goTrimSpace requestedModel))

/-- Spec-worded model rewriting (spec section 4.2): the trimmed requested
model with the trimmed prefix stripped when it is a literal prefix of it,
else the trimmed original unchanged. -/
def specRewrite (p : Provider) (requestedModel : GoStr) : GoStr :=
  let t := goTrimSpace requestedModel
  let pre := goTrimSpace p.modelPref
  if pre.isPrefixOf t then t.drop pre.length else t

/-- The normalization invariant that the registry maintains on every stored
provider: non-blank kind, non-blank modelPrefix, and a non-blank baseURL for
the chatgpt kind. -/
def provInv (q : Provider) : Prop :=
  q.kind ≠ [] ∧ goTrimSpace q.modelPref ≠ [] ∧
    (q.kind = gs "chatgpt" → goTrimSpace q.baseURL ≠ [])

instance (q : Provider) : Decidable (provInv q) := by
  unfold provInv; infer_instance

/-- The per-kind default model prefix of the spec (section 3). -/
def defaultPreFor (kind : GoStr) : GoStr :=
  if kind = gs "ollama" then gs "ollama/"
  else if kind = gs "codex" then gs "codex/"
  else if kind = gs "chatgpt" then gs "chatgpt/"
  else gs "remote/"

/-- Agreement of two providers on every non-secret field together with the
blank/non-blank status of each secret field. -/
def publicEq (p q : Provider) : Prop :=
  p.name = q.name ∧ p.kind = q.kind ∧ p.baseURL = q.baseURL ∧
    p.modelPref = q.modelPref ∧ p.routeAll = q.routeAll ∧
    (goTrimSpace p.apiKey).isEmpty = (goTrimSpace q.apiKey).isEmpty ∧
    (goTrimSpace p.accessToken).isEmpty = (goTrimSpace q.accessToken).isEmpty ∧
    (goTrimSpace p.accountID).isEmpty = (goTrimSpace q.accountID).isEmpty

instance (p q : Provider) : Decidable (publicEq p q) := by
  unfold publicEq; infer_instance

/-- Spec-worded token estimate (spec section 4.4): 0 tokens for an empty
text, 1 token for 1 to 3 characters, else the length divided by 4. -/
def tokSpec (n : Nat) : Nat :=
  if n = 0 then 0 else if 1 ≤ n ∧ n ≤ 3 then 1 else n / 4

/-- Concatenation of the contents of a message list. -/
def concatContents (messages : List Message) : GoStr :=
  messages.foldr (fun m acc => m.content ++ acc) []

/-- A concrete codex-style provider used by the witnesses. -/
def cProv : Provider :=
  ⟨gs "codex", gs "codex", gs "https://example.com", [], [], [], gs "codex/", false⟩

/-- The trivial network oracle (never reached in the witnessed runs). -/
def netNone : Net := fun _ _ _ => NetResult.transportErr

lemma shouldProxy_eq_specMatchB (p : Provider) (m : GoStr)
    (hp : goTrimSpace p.modelPref ≠ []) : shouldProxy p m = specMatchB p m := by
  unfold shouldProxy specMatchB
  by_cases hb : goTrimSpace p.baseURL = []
  · simp [hb]
  · by_cases hr : p.routeAll
    · simp [hb, hr]
    · simp [hb, hr, List.isEmpty_iff, hp]

lemma normalizeModel_eq_specRewrite (p : Provider) (m : GoStr) :
    normalizeModel p m = specRewrite p m := by
  unfold normalizeModel specRewrite goTrimPre
  by_cases hp : goTrimSpace p.modelPref = []
  · simp [hp, List.isPrefixOf]
  · by_cases hpre : (goTrimSpace p.modelPref).isPrefixOf (goTrimSpace m) = true
    · simp [List.isEmpty_iff, hp, hpre]
    · simp at hpre
      simp [List.isEmpty_iff, hp, hpre]

/-- C1.  Router match: for every registry state satisfying the registry's
normalization invariant on model prefixes (every stored provider has a
non-blank trimmed modelPrefix, which `Upsert`/`SetAll` guarantee), `Match`
returns the first provider in registration order whose baseURL is non-blank
and whose policy (routeAll, or trimmed-prefix match against the trimmed
requested model) accepts the request, paired with the rewritten model (the
trimmed model with the prefix stripped when it is a literal prefix, else the
trimmed original); it returns `none` (`found = false`) when no provider
matches. -/
theorem c1_router_first_match (ps : List Provider) (m : GoStr)
    (h : ∀ p ∈ ps, goTrimSpace p.modelPref ≠ []) :
    managerMatch ps m =
      (ps.find? (fun p => specMatchB p m)).map (fun p => (p, specRewrite p m)) := by
  induction ps with
  | nil => rfl
  | cons p rest ih =>
      have hp : goTrimSpace p.modelPref ≠ [] := h p (List.mem_cons_self p rest)
      have hrest : ∀ q ∈ rest, goTrimSpace q.modelPref ≠ [] :=
        fun q hq => h q (List.mem_cons_of_mem p hq)
      unfold managerMatch
      rw [shouldProxy_eq_specMatchB p m hp, normalizeModel_eq_specRewrite p m]
      by_cases hm : specMatchB p m = true
      · simp [List.find?, hm]
      · simp at hm
        simp [List.find?, hm, ih hrest]

/-- Witness for C1 at a concrete registry and model. -/
theorem c1_router_first_match_witness :
    (∀ p ∈ [cProv], goTrimSpace p.modelPref ≠ []) ∧
      managerMatch [cProv] (gs "codex/gpt-5") =
        (([cProv].find? (fun p => specMatchB p (gs "codex/gpt-5"))).map
          (fun p => (p, specRewrite p (gs "codex/gpt-5")))) :=
  ⟨by decide, c1_router_first_match [cProv] (gs "codex/gpt-5") (by decide)⟩

lemma runCompletion_fallback (net : Net) (ps : List Provider) (rs : List Rule)
    (now : Int) (req : CompletionRequest)
    (h1 : req.messages ≠ []) (h2 : managerMatch ps req.model = none) :
    runCompletion net ps rs now req =
      ⟨⟨gs "chatcmpl-mock", gs "chat.completion", now, chooseModel req.model,
        [⟨0, gs "stop", ⟨gs "assistant",
          (storeMatch rs (req.messages.getLast?.getD ⟨[], []⟩).content).getD
            genericFallbackReply⟩⟩],
        ⟨estimateTokens req.messages,
         estimateTokens [⟨gs "assistant",
           (storeMatch rs (req.messages.getLast?.getD ⟨[], []⟩).content).getD
             genericFallbackReply⟩],
         estimateTokens req.messages +
           estimateTokens [⟨gs "assistant",
             (storeMatch rs (req.messages.getLast?.getD ⟨[], []⟩).content).getD
               genericFallbackReply⟩]⟩⟩, 200, none⟩ := by
  unfold runCompletion
  simp [List.isEmpty_iff, h1, h2]

/-- C2.  Fallback path: when the message list is non-empty and the model
matches no provider, the orchestrator queries the rule store with the last
message's content, uses the matched reply (or the fixed generic fallback on
no hit), and returns status 200 with the canonical mock response — id
"chatcmpl-mock", single choice at index 0, finish reason "stop", assistant
role.  In particular, with no providers and the seed rules, message "hello"
yields the reply "Hi! This is a mocked assistant response.". -/
theorem c2_fallback_rule_store (net : Net) (ps : List Provider) (rs : List Rule)
    (now : Int) (req : CompletionRequest)
    (h1 : req.messages ≠ []) (h2 : managerMatch ps req.model = none) :
    (runCompletion net ps rs now req).status = 200 ∧
    (runCompletion net ps rs now req).err = none ∧
    (runCompletion net ps rs now req).resp.id = gs "chatcmpl-mock" ∧
    (runCompletion net ps rs now req).resp.choices =
      [⟨0, gs "stop", ⟨gs "assistant",
        (storeMatch rs (req.messages.getLast?.getD ⟨[], []⟩).content).getD
          genericFallbackReply⟩⟩] ∧
    runCompletion netNone [] seedRules 0 ⟨gs "gpt-mock-1", [⟨gs "user", gs "hello"⟩]⟩ =
      ⟨⟨gs "chatcmpl-mock", gs "chat.completion", 0, gs "gpt-mock-1",
        [⟨0, gs "stop", ⟨gs "assistant", gs "Hi! This is a mocked assistant response."⟩⟩],
        ⟨1, 10, 11⟩⟩, 200, none⟩ := by
  rw [runCompletion_fallback net ps rs now req h1 h2]
  refine ⟨rfl, rfl, rfl, rfl, by decide⟩

/-- Witness for C2 at the seed configuration and the message "hello". -/
theorem c2_fallback_rule_store_witness :
    (([⟨gs "user", gs "hello"⟩] : List Message) ≠ [] ∧
      managerMatch [] (gs "gpt-mock-1") = none) ∧
    (runCompletion netNone [] seedRules 0
        ⟨gs "gpt-mock-1", [⟨gs "user", gs "hello"⟩]⟩).resp.id = gs "chatcmpl-mock" :=
  ⟨⟨by decide, rfl⟩,
    (c2_fallback_rule_store netNone [] seedRules 0
      ⟨gs "gpt-mock-1", [⟨gs "user", gs "hello"⟩]⟩ (by decide) rfl).2.2.1⟩

/-- C3.  An empty message list fails with an InvalidRequest error (status
400), the returned response is the zero canonical response, and the registry
is never consulted: the outcome is identical for every registry state. -/
theorem c3_empty_messages_invalid (net : Net) (ps : List Provider)
    (rs : List Rule) (now : Int) (req : CompletionRequest)
    (h : req.messages = []) :
    runCompletion net ps rs now req =
      ⟨zeroResp, 400, some (gs "messages must not be empty")⟩ ∧
    (∀ ps' : List Provider,
      runCompletion net ps' rs now req = runCompletion net ps rs now req) := by
  constructor
  · unfold runCompletion; simp [h]
  · intro ps'; unfold runCompletion; simp [h]

/-- Witness for C3 at a concrete empty request. -/
theorem c3_empty_messages_invalid_witness :
    (([] : List Message) = []) ∧
    runCompletion netNone [cProv] seedRules 0 ⟨gs "codex/gpt-5", []⟩ =
      ⟨zeroResp, 400, some (gs "messages must not be empty")⟩ :=
  ⟨rfl, (c3_empty_messages_invalid netNone [cProv] seedRules 0
    ⟨gs "codex/gpt-5", []⟩ rfl).1⟩

lemma concatContents_length (messages : List Message) (acc : Nat) :
    messages.foldl (fun a m => a + m.content.length) acc =
      acc + (concatContents messages).length := by
  induction messages generalizing acc with
  | nil => simp [concatContents]
  | cons m rest ih =>
      simp only [List.foldl_cons, concatContents, List.foldr_cons, List.length_append]
      rw [ih]
      simp [concatContents]
      omega

lemma estimateTokens_eq_tokSpec (messages : List Message) :
    estimateTokens messages = Int.ofNat (tokSpec (concatContents messages).length) := by
  unfold estimateTokens tokSpec
  rw [concatContents_length messages 0]
  simp only [Nat.zero_add]
  by_cases h0 : (concatContents messages).length = 0
  · simp [h0]
  · by_cases h4 : (concatContents messages).length < 4
    · have h13 : 1 ≤ (concatContents messages).length ∧
        (concatContents messages).length ≤ 3 := by omega
      simp [h0, h4, h13]
    · have h13 : ¬(1 ≤ (concatContents messages).length ∧
        (concatContents messages).length ≤ 3) := by omega
      simp [h0, h4, h13]

/-- C9.  Fallback token usage: `estimateTokens` computes the spec function
(0 for empty, 1 for 1 to 3 characters, else length divided by 4) of the
length of the concatenation of the messages' contents, and the fallback
response's usage applies it to the prompt and to the reply, with
totalTokens their sum. -/
theorem c9_token_usage (net : Net) (ps : List Provider) (rs : List Rule)
    (now : Int) (req : CompletionRequest)
    (h1 : req.messages ≠ []) (h2 : managerMatch ps req.model = none) :
    (∀ messages : List Message,
      estimateTokens messages = Int.ofNat (tokSpec (concatContents messages).length)) ∧
    ∃ reply : GoStr,
      (runCompletion net ps rs now req).resp.choices =
        [⟨0, gs "stop", ⟨gs "assistant", reply⟩⟩] ∧
      (runCompletion net ps rs now req).resp.usage.promptTokens =
        Int.ofNat (tokSpec (concatContents req.messages).length) ∧
      (runCompletion net ps rs now req).resp.usage.completionTokens =
        Int.ofNat (tokSpec reply.length) ∧
      (runCompletion net ps rs now req).resp.usage.totalTokens =
        (runCompletion net ps rs now req).resp.usage.promptTokens +
          (runCompletion net ps rs now req).resp.usage.completionTokens := by
  refine ⟨estimateTokens_eq_tokSpec, ?_⟩
  rw [runCompletion_fallback net ps rs now req h1 h2]
  refine ⟨(storeMatch rs (req.messages.getLast?.getD ⟨[], []⟩).content).getD
    genericFallbackReply, rfl, estimateTokens_eq_tokSpec req.messages, ?_, rfl⟩
  have h := estimateTokens_eq_tokSpec
    [⟨gs "assistant", (storeMatch rs (req.messages.getLast?.getD ⟨[], []⟩).content).getD
      genericFallbackReply⟩]
  simpa [concatContents] using h

/-- Witness for C9 at the seed configuration and the message "hello". -/
theorem c9_token_usage_witness :
    (([⟨gs "user", gs "hello"⟩] : List Message) ≠ []) ∧
    ∃ reply : GoStr,
      (runCompletion netNone [] seedRules 0
        ⟨gs "gpt-mock-1", [⟨gs "user", gs "hello"⟩]⟩).resp.choices =
        [⟨0, gs "stop", ⟨gs "assistant", reply⟩⟩] ∧
      (runCompletion netNone [] seedRules 0
        ⟨gs "gpt-mock-1", [⟨gs "user", gs "hello"⟩]⟩).resp.usage.promptTokens =
        Int.ofNat (tokSpec (concatContents [⟨gs "user", gs "hello"⟩]).length) ∧
      (runCompletion netNone [] seedRules 0
        ⟨gs "gpt-mock-1", [⟨gs "user", gs "hello"⟩]⟩).resp.usage.completionTokens =
        Int.ofNat (tokSpec reply.length) ∧
      (runCompletion netNone [] seedRules 0
        ⟨gs "gpt-mock-1", [⟨gs "user", gs "hello"⟩]⟩).resp.usage.totalTokens =
        (runCompletion netNone [] seedRules 0
          ⟨gs "gpt-mock-1", [⟨gs "user", gs "hello"⟩]⟩).resp.usage.promptTokens +
          (runCompletion netNone [] seedRules 0
            ⟨gs "gpt-mock-1", [⟨gs "user", gs "hello"⟩]⟩).resp.usage.completionTokens :=
  ⟨by decide, (c9_token_usage netNone [] seedRules 0
    ⟨gs "gpt-mock-1", [⟨gs "user", gs "hello"⟩]⟩ (by decide) rfl).2⟩

/-- Spec-worded provider identity (spec section 3): decided in priority
order by matching non-blank names, else matching non-blank model prefixes,
else the (kind, baseURL) pair. -/
def specIdent (a b : Provider) : Prop :=
  if goTrimSpace a.name ≠ [] ∧ goTrimSpace b.name ≠ [] then a.name = b.name
  else if goTrimSpace a.modelPref ≠ [] ∧ goTrimSpace b.modelPref ≠ [] then
    a.modelPref = b.modelPref
  else a.kind = b.kind ∧ a.baseURL = b.baseURL

lemma sameProvider_rfl (q : Provider) : sameProvider q q = true := by
  unfold sameProvider
  split_ifs <;> simp

lemma sameProvider_iff_specIdent (a b : Provider) :
    sameProvider a b = true ↔ specIdent a b := by
  unfold sameProvider specIdent
  split_ifs <;> simp

lemma upsertAux_idem (ps : List Provider) (q : Provider) :
    upsertAux (upsertAux ps q) q = upsertAux ps q := by
  induction ps with
  | nil => simp [upsertAux, sameProvider_rfl]
  | cons x xs ih =>
      by_cases hx : sameProvider x q = true
      · simp [upsertAux, hx, sameProvider_rfl]
      · simp at hx
        simp [upsertAux, hx, ih]

lemma upsertAux_countP (ps : List Provider) (q : Provider)
    (h : ps.countP (fun e => sameProvider e q) ≤ 1) :
    (upsertAux ps q).countP (fun e => sameProvider e q) = 1 := by
  induction ps with
  | nil => simp [upsertAux, List.countP_cons, sameProvider_rfl]
  | cons x xs ih =>
      rw [List.countP_cons] at h
      by_cases hx : sameProvider x q = true
      · have hxs : xs.countP (fun e => sameProvider e q) = 0 := by
          rw [if_pos (by simpa using hx)] at h
          omega
        simp [upsertAux, hx, List.countP_cons, sameProvider_rfl, hxs]
      · simp at hx
        have hxs : xs.countP (fun e => sameProvider e q) ≤ 1 := by
          rw [if_neg (by simp [hx])] at h
          omega
        simp [upsertAux, hx, List.countP_cons, ih hxs]

lemma upsertAux_mem (ps : List Provider) (q e : Provider)
    (he : e ∈ upsertAux ps q) : e ∈ ps ∨ e = q := by
  induction ps with
  | nil =>
      simp [upsertAux] at he
      exact Or.inr he
  | cons x xs ih =>
      by_cases hx : sameProvider x q = true
      · simp [upsertAux, hx] at he
        rcases he with he | he
        · exact Or.inr he
        · exact Or.inl (List.mem_cons_of_mem x he)
      · simp at hx
        simp [upsertAux, hx] at he
        rcases he with he | he
        · exact Or.inl (by simp [he])
        · rcases ih he with h1 | h1
          · exact Or.inl (List.mem_cons_of_mem x h1)
          · exact Or.inr h1

/-- The counterexample record for C4: a named provider. -/
def dupProv : Provider := ⟨gs "a", [], gs "b", [], [], [], [], false⟩

/-- Counterexample for C4 as stated: starting from the registry state
produced by `SetAll` with the same record twice (SetAll never deduplicates),
one and even two further Upserts of that record leave two entries matching
its identity in `List()`, not exactly one. -/
theorem c4_upsert_counterexample :
    ¬ ((managerUpsert (managerUpsert (managerSetAll [dupProv, dupProv]) dupProv)
        dupProv).countP
          (fun e => sameProvider e (normalizeProvider dupProv)) = 1) := by decide

/-- C4 (amended).  Upsert is idempotent on every registry state (twice with
the same record equals once); the matched-or-appended identity is the
spec's priority rule (non-blank name, else non-blank modelPrefix, else the
(kind, baseURL) pair); a matched entry is replaced wholesale by the
normalized record (every entry of the new list is an old entry or exactly
the normalized record); and `List()` holds exactly one entry for the
record's identity whenever the prior state held at most one such entry (in
particular starting from the empty registry) — but not for every prior
state, since `SetAll` can install duplicates. -/
theorem c4_upsert_idempotent_amended :
    (∀ (ps : List Provider) (p : Provider),
      managerUpsert (managerUpsert ps p) p = managerUpsert ps p) ∧
    (∀ (ps : List Provider) (p : Provider),
      ps.countP (fun e => sameProvider e (normalizeProvider p)) ≤ 1 →
      (managerUpsert ps p).countP
        (fun e => sameProvider e (normalizeProvider p)) = 1) ∧
    (∀ a b : Provider, sameProvider a b = true ↔ specIdent a b) ∧
    (∀ (ps : List Provider) (p e : Provider),
      e ∈ managerUpsert ps p → e ∈ ps ∨ e = normalizeProvider p) := by
  refine ⟨?_, ?_, sameProvider_iff_specIdent, ?_⟩
  · intro ps p
    unfold managerUpsert
    exact upsertAux_idem ps (normalizeProvider p)
  · intro ps p h
    unfold managerUpsert
    exact upsertAux_countP ps (normalizeProvider p) h
  · intro ps p e he
    exact upsertAux_mem ps (normalizeProvider p) e he

/-- Witness for C4 at a concrete record, starting from the empty registry. -/
theorem c4_upsert_idempotent_amended_witness :
    (managerUpsert (managerUpsert [] dupProv) dupProv = managerUpsert [] dupProv) ∧
    (([] : List Provider).countP
        (fun e => sameProvider e (normalizeProvider dupProv)) ≤ 1 ∧
      (managerUpsert [] dupProv).countP
        (fun e => sameProvider e (normalizeProvider dupProv)) = 1) :=
  ⟨c4_upsert_idempotent_amended.1 [] dupProv,
   by decide,
   c4_upsert_idempotent_amended.2.1 [] dupProv (by decide)⟩

lemma normalizeProvider_kind_ne_nil (p : Provider) :
    (normalizeProvider p).kind ≠ [] := by
  unfold normalizeProvider
  dsimp only
  by_cases hk : goTrimSpace p.kind = []
  · simp only [hk, if_pos]
    decide
  · simp only [hk, if_neg, goToLower]
    intro hcontra
    exact hk (List.map_eq_nil_iff.mp hcontra)

lemma normalizeProvider_pre_trim_ne_nil (p : Provider) :
    goTrimSpace (normalizeProvider p).modelPref ≠ [] := by
  unfold normalizeProvider
  dsimp only
  by_cases hm : goTrimSpace p.modelPref = []
  · simp only [hm, if_pos]
    split_ifs <;> decide
  · simp only [hm, if_neg]
    exact hm

lemma normalizeProvider_chatgpt_base (p : Provider) :
    (normalizeProvider p).kind = gs "chatgpt" →
      goTrimSpace (normalizeProvider p).baseURL ≠ [] := by
  unfold normalizeProvider
  dsimp only
  intro hkind
  by_cases hb : goTrimSpace p.baseURL = []
  · rw [if_pos ⟨hb, hkind⟩]
    decide
  · rw [if_neg (fun hand => hb hand.1)]
    exact hb

lemma provInv_normalizeProvider (p : Provider) : provInv (normalizeProvider p) :=
  ⟨normalizeProvider_kind_ne_nil p, normalizeProvider_pre_trim_ne_nil p,
   normalizeProvider_chatgpt_base p⟩

/-- The counterexample record for C5: an unknown kind. -/
def weirdProv : Provider :=
  ⟨gs "w", gs "weird", gs "b", [], [], [], gs "w/", false⟩

/-- Counterexample for C5 as stated: `normalizeProvider` never restricts the
kind to the closed set — upserting a provider with kind "weird" stores that
kind verbatim. -/
theorem c5_normalization_counterexample :
    ¬ (∀ q ∈ managerUpsert [] weirdProv,
        q.kind = gs "openai" ∨ q.kind = gs "ollama" ∨
          q.kind = gs "chatgpt" ∨ q.kind = gs "codex") := by decide

/-- C5 (amended).  After every registry mutation every stored provider is
normalized: its kind is never blank (the trimmed, lowercased input,
defaulting to "openai" when blank — but NOT restricted to the closed set:
unknown kinds are stored verbatim); its modelPrefix is never blank after
trimming, defaulting per kind to "ollama/", "codex/", "chatgpt/", else
"remote/"; its name, when blank, is filled from the prefix with the trailing
"/" removed; and its baseURL, when blank, defaults to a well-known value
exactly for the chatgpt kind. -/
theorem c5_normalization_invariant_amended :
    (∀ (ps : List Provider) (p : Provider), (∀ q ∈ ps, provInv q) →
      ∀ q ∈ managerUpsert ps p, provInv q) ∧
    (∀ ps : List Provider, ∀ q ∈ managerSetAll ps, provInv q) ∧
    (∀ p : Provider, goTrimSpace p.kind = [] →
      (normalizeProvider p).kind = gs "openai") ∧
    (∀ p : Provider, goTrimSpace p.kind ≠ [] →
      (normalizeProvider p).kind = goToLower (goTrimSpace p.kind)) ∧
    (∀ p : Provider, goTrimSpace p.modelPref = [] →
      (normalizeProvider p).modelPref = defaultPreFor (normalizeProvider p).kind) ∧
    (∀ p : Provider, goTrimSpace p.modelPref ≠ [] →
      (normalizeProvider p).modelPref = p.modelPref) ∧
    (∀ p : Provider, goTrimSpace p.name = [] →
      (normalizeProvider p).name =
        goTrimSuf (normalizeProvider p).modelPref (gs "/")) ∧
    (∀ p : Provider, goTrimSpace p.baseURL = [] →
      ((normalizeProvider p).kind = gs "chatgpt" →
        (normalizeProvider p).baseURL = gs "https://chatgpt.com") ∧
      ((normalizeProvider p).kind ≠ gs "chatgpt" →
        (normalizeProvider p).baseURL = p.baseURL)) := by
  refine ⟨?_, ?_, ?_, ?_, ?_, ?_, ?_, ?_⟩
  · intro ps p _h q hq
    rcases upsertAux_mem ps (normalizeProvider p) q hq with h1 | h1
    · exact _h q h1
    · rw [h1]; exact provInv_normalizeProvider p
  · intro ps q hq
    rcases List.mem_map.mp hq with ⟨x, _, hx⟩
    rw [← hx]; exact provInv_normalizeProvider x
  · intro p hk
    unfold normalizeProvider
    dsimp only
    rw [if_pos hk]
    decide
  · intro p hk
    unfold normalizeProvider
    dsimp only
    rw [if_neg hk]
  · intro p hm
    unfold normalizeProvider defaultPreFor
    dsimp only
    rw [if_pos hm]
  · intro p hm
    unfold normalizeProvider
    dsimp only
    rw [if_neg hm]
  · intro p hn
    unfold normalizeProvider
    dsimp only
    rw [if_pos hn]
  · intro p hb
    constructor
    · intro hkind
      unfold normalizeProvider at hkind ⊢
      dsimp only at hkind ⊢
      rw [if_pos ⟨hb, hkind⟩]
    · intro hkind
      unfold normalizeProvider at hkind ⊢
      dsimp only at hkind ⊢
      rw [if_neg (fun hand => hkind hand.2)]

/-- Witness for C5 at a concrete mutation from the empty registry. -/
theorem c5_normalization_invariant_amended_witness :
    ((∀ q ∈ ([] : List Provider), provInv q) ∧
      ∀ q ∈ managerUpsert [] weirdProv, provInv q) ∧
    (goTrimSpace (⟨[], [], [], [], [], [], [], false⟩ : Provider).kind = [] ∧
      (normalizeProvider ⟨[], [], [], [], [], [], [], false⟩).kind = gs "openai") :=
  ⟨⟨by decide, c5_normalization_invariant_amended.1 [] weirdProv (by decide)⟩,
   ⟨by decide, c5_normalization_invariant_amended.2.2.1
      ⟨[], [], [], [], [], [], [], false⟩ (by decide)⟩⟩

lemma viewOf_publicEq (p q : Provider) (h : publicEq p q) : viewOf p = viewOf q := by
  obtain ⟨h1, h2, h3, h4, h5, h6, h7, h8⟩ := h
  unfold viewOf
  rw [h1, h2, h3, h4, h5, h6, h7, h8]

/-- C6.  Redacted views: `Views` returns one view per provider in order;
each presence flag is true exactly when the corresponding secret field was
non-blank after trimming; and the output is identical for any two registry
states that agree on the non-secret fields and on the blank/non-blank
status of each secret field — so no secret value is observable through this
interface. -/
theorem c6_redacted_views (ps qs : List Provider)
    (h : List.Forall₂ publicEq ps qs) :
    (managerViews ps).length = ps.length ∧
    (∀ p : Provider,
      ((viewOf p).hasAPIKey = true ↔ goTrimSpace p.apiKey ≠ []) ∧
      ((viewOf p).hasAccessToken = true ↔ goTrimSpace p.accessToken ≠ []) ∧
      ((viewOf p).hasAccountID = true ↔ goTrimSpace p.accountID ≠ [])) ∧
    (∀ i : Nat, ∀ hi : i < ps.length,
      (managerViews ps).get ⟨i, by simpa [managerViews] using hi⟩ =
        viewOf (ps.get ⟨i, hi⟩)) ∧
    managerViews ps = managerViews qs := by
  refine ⟨by simp [managerViews], ?_, ?_, ?_⟩
  · intro p
    refine ⟨?_, ?_, ?_⟩ <;> simp [viewOf, List.isEmpty_iff]
  · intro i hi
    simp [managerViews]
  · induction h with
    | nil => rfl
    | cons hpq _ ih =>
        simp only [managerViews, List.map_cons] at ih ⊢
        rw [viewOf_publicEq _ _ hpq, ih]

/-- Witness for C6: two one-provider states with different secret values but
the same blankness produce identical views. -/
theorem c6_redacted_views_witness :
    List.Forall₂ publicEq
      [⟨gs "codex", gs "codex", gs "b", gs "secret-one", [], [], gs "codex/", false⟩]
      [⟨gs "codex", gs "codex", gs "b", gs "other", [], [], gs "codex/", false⟩] ∧
    managerViews
      [⟨gs "codex", gs "codex", gs "b", gs "secret-one", [], [], gs "codex/", false⟩] =
    managerViews
      [⟨gs "codex", gs "codex", gs "b", gs "other", [], [], gs "codex/", false⟩] :=
  ⟨List.Forall₂.cons (by decide) List.Forall₂.nil,
   (c6_redacted_views _ _ (List.Forall₂.cons (by decide) List.Forall₂.nil)).2.2.2⟩

/-- C7.  ChatGPT text extraction: the struct-decoded top-level output_text
wins when non-blank; otherwise the generic-decode lookup of the same field
wins when it is a string; otherwise the output array is walked, collecting
every content element's text in order, joined by newlines and trimmed; a
body that is not an object (or misses everything) yields the empty string.
Concretely, an output_text of "hi" yields "hi", the two-element output walk
yields "a\nb", and the empty object yields "". -/
theorem c7_chatgpt_extraction :
    extractChatGPTOutputText (Json.obj [(gs "output_text", Json.str (gs "hi"))]) =
      gs "hi" ∧
    extractChatGPTOutputText (Json.obj [(gs "output", Json.arr
      [Json.obj [(gs "content", Json.arr [Json.obj [(gs "text", Json.str (gs "a"))]])],
       Json.obj [(gs "content", Json.arr [Json.obj [(gs "text", Json.str (gs "b"))]])]])]) =
      gs "a\nb" ∧
    extractChatGPTOutputText (Json.obj []) = [] ∧
    (∀ (f : List (GoStr × Json)) (v : GoStr),
      jlookup (gs "output_text") f = some (Json.str v) → goTrimSpace v ≠ [] →
      extractChatGPTOutputText (Json.obj f) = v) ∧
    (∀ f : List (GoStr × Json),
      jlookup (gs "output_text") f = none →
      extractChatGPTOutputText (Json.obj f) =
        (match jlookup (gs "output") f with
         | some (Json.arr items) => goTrimSpace (joinNL (collectTexts items))
         | _ => [])) ∧
    (∀ xs : List Json, extractChatGPTOutputText (Json.arr xs) = []) := by
  refine ⟨by decide, by decide, by decide, ?_, ?_, ?_⟩
  · intro f v hf hv
    unfold extractChatGPTOutputText decodeSimpleOutputText
    dsimp only
    rw [hf]
    simp [List.isEmpty_iff, hv]
  · intro f hf
    unfold extractChatGPTOutputText decodeSimpleOutputText genericExtract
    dsimp only
    rw [hf]
    simp [goTrimSpace]
  · intro xs
    unfold extractChatGPTOutputText decodeSimpleOutputText genericExtract
    simp

/-- Witness for C7's layered characterization at a concrete body. -/
theorem c7_chatgpt_extraction_witness :
    jlookup (gs "output_text") [(gs "output_text", Json.str (gs "hi"))] =
      some (Json.str (gs "hi")) ∧
    goTrimSpace (gs "hi") ≠ [] ∧
    extractChatGPTOutputText (Json.obj [(gs "output_text", Json.str (gs "hi"))]) =
      gs "hi" :=
  ⟨rfl, by decide,
   c7_chatgpt_extraction.2.2.2.1 [(gs "output_text", Json.str (gs "hi"))]
     (gs "hi") rfl (by decide)⟩

/-- C10.  A present-but-blank output_text string short-circuits the output
walk: the generic-decode lookup of layer (2) accepts any string value, blank
included, and the output array is never consulted (the result does not
depend on it). -/
theorem c10_blank_output_text (f : List (GoStr × Json)) (v : GoStr)
    (hf : jlookup (gs "output_text") f = some (Json.str v))
    (hv : goTrimSpace v = []) :
    extractChatGPTOutputText (Json.obj f) = v := by
  unfold extractChatGPTOutputText decodeSimpleOutputText genericExtract
  dsimp only
  rw [hf]
  simp [List.isEmpty_iff, hv]

/-- Witness for C10 at the claim's concrete body: blank output_text beside a
non-empty output array still yields the blank string. -/
theorem c10_blank_output_text_witness :
    jlookup (gs "output_text")
      [(gs "output_text", Json.str []),
       (gs "output", Json.arr [Json.obj [(gs "content",
         Json.arr [Json.obj [(gs "text", Json.str (gs "a"))]])]])] =
      some (Json.str []) ∧
    goTrimSpace [] = [] ∧
    extractChatGPTOutputText (Json.obj
      [(gs "output_text", Json.str []),
       (gs "output", Json.arr [Json.obj [(gs "content",
         Json.arr [Json.obj [(gs "text", Json.str (gs "a"))]])]])]) = [] :=
  ⟨rfl, rfl, c10_blank_output_text _ [] rfl rfl⟩

/-- C8.  Ollama translation: a decoded successful Ollama body maps
prompt_eval_count to promptTokens and eval_count to completionTokens with
totalTokens their sum, synthesizes a single choice at index 0 with finish
reason "stop" and the id "chatcmpl-ollama"; and round-tripping a message
through the Ollama wire shape (`messageToJson`, the encoding used for the
wire request's messages array) and back through the response decoder
preserves role and content. -/
theorem c8_ollama_translation (now : Int) (j : Json) (o : OllamaResp)
    (h : decodeOllamaResp j = some o) :
    translateOllama now j = some
      ⟨gs "chatcmpl-ollama", gs "chat.completion", now, o.model,
       [⟨0, gs "stop", ⟨o.msgRole, o.msgContent⟩⟩],
       ⟨o.promptEvalCount, o.evalCount, o.promptEvalCount + o.evalCount⟩⟩ ∧
    (∀ m : Message, decodeOllamaMsg (messageToJson m) = some (m.role, m.content)) := by
  constructor
  · unfold translateOllama
    rw [h]
    rfl
  · intro m
    rfl

/-- The concrete successful Ollama body used by the repository's tests. -/
def ollamaBody : Json :=
  Json.obj
    [(gs "model", Json.str (gs "llama3.1")),
     (gs "message", Json.obj [(gs "role", Json.str (gs "assistant")),
                              (gs "content", Json.str (gs "from ollama"))]),
     (gs "prompt_eval_count", Json.num 2),
     (gs "eval_count", Json.num 3)]

/-- Witness for C8 at the concrete body used by the repository's tests. -/
theorem c8_ollama_translation_witness :
    decodeOllamaResp ollamaBody =
      some ⟨gs "llama3.1", gs "assistant", gs "from ollama", 2, 3⟩ ∧
    translateOllama 0 ollamaBody =
      some ⟨gs "chatcmpl-ollama", gs "chat.completion", 0, gs "llama3.1",
        [⟨0, gs "stop", ⟨gs "assistant", gs "from ollama"⟩⟩], ⟨2, 3, 2 + 3⟩⟩ :=
  ⟨rfl, (c8_ollama_translation 0 ollamaBody ⟨gs "llama3.1", gs "assistant",
    gs "from ollama", 2, 3⟩ rfl).1⟩
